import Mathlib

/-!
Shallow embedding of the multi-workspace routing core of the linear-mcp
server (src/src/index.ts).  The upstream Linear SDK, the MCP transport,
JSON parsing and URL decoding are external collaborators; they are
abstracted at their call boundary, everything the claims are about
(configuration startup, client pool, workspace lookup, routing precedence,
the list_workspaces tool handler, the call-tool dispatch envelope and the
workflow-state pagination loop) is translated from the source.
-/

/-- A constructed upstream API client (`new LinearClient({apiKey})`,
src/src/index.ts line 98): all the core ever does with a client is build it
from a credential and hand it out, so it is represented by that credential. -/
structure LinearClient where
  apiKey : String
deriving DecidableEq

/-- One entry of `workspacesConfig.workspaces` (src/src/index.ts lines 22-31).
`aliases` is the optional comma-separated string of the source. -/
structure Workspace where
  id : String
  name : String
  email : String
  apiKey : String
  aliases : Option String
deriving DecidableEq

/-- The parsed `workspacesConfig` value (src/src/index.ts lines 22-31). -/
structure WorkspacesConfig where
  workspaces : List Workspace
  activeWorkspaceId : Option String
deriving DecidableEq

/-- The `linearClients` JS `Map` (src/src/index.ts line 93), as an ordered
association list with at most one entry per key. -/
abbrev ClientMap := List (String × LinearClient)

/-- JS `Map.set`: replace the value at an existing key in place, otherwise
append a fresh entry. -/
def mapSet (m : ClientMap) (k : String) (v : LinearClient) : ClientMap :=
  match m with
  | [] => [(k, v)]
  | (k0, v0) :: rest => if k0 == k then (k0, v) :: rest else (k0, v0) :: mapSet rest k v

/-- JS `Map.get` (returns `undefined` as `none`). -/
def mapGet (m : ClientMap) (k : String) : Option LinearClient :=
  (m.find? (fun p => p.1 == k)).map (fun p => p.2)

/-- JS `Map.has`. -/
def mapHas (m : ClientMap) (k : String) : Bool :=
  (m.find? (fun p => p.1 == k)).isSome

/-- Outcome of `getLinearClient` (src/src/index.ts lines 125-142): a client,
the `undefined` produced by the non-null assertion on a missing map entry,
or the thrown "No Linear client available" error. -/
inductive ResolveResult where
  | client (c : LinearClient)
  | missingClient
  | error (msg : String)
deriving DecidableEq

/-- `linearClients.get(x)!`: the non-null assertion lets `undefined` through. -/
def clientFromGet : Option LinearClient → ResolveResult
  | some c => .client c
  | none => .missingClient

/-- Fallback tier 3 of `getLinearClient` (src/src/index.ts lines 136-141):
the first workspace in declaration order, else the thrown error. -/
def firstWorkspaceClient (cfg : Option WorkspacesConfig) (clients : ClientMap) : ResolveResult :=
  match cfg with
  | some c =>
    match c.workspaces with
    | w0 :: _ => clientFromGet (mapGet clients w0.id)
    | [] => .error "No Linear client available. Please check your configuration."
  | none => .error "No Linear client available. Please check your configuration."

/-- Fallback tier 2 of `getLinearClient` (src/src/index.ts lines 131-134):
the configured active workspace when its client exists, else tier 3.  The
`workspacesConfig?.activeWorkspaceId &&` guard makes an absent or empty
active id falsy. -/
def activeWorkspaceClient (cfg : Option WorkspacesConfig) (clients : ClientMap) : ResolveResult :=
  match cfg with
  | some c =>
    match c.activeWorkspaceId with
    | some a =>
      if a != "" && mapHas clients a then clientFromGet (mapGet clients a)
      else firstWorkspaceClient cfg clients
    | none => firstWorkspaceClient cfg clients
  | none => firstWorkspaceClient cfg clients

/-- `getLinearClient` (src/src/index.ts lines 125-142).  Tier 1: a truthy
`workspaceId` argument that is a key of `linearClients`; otherwise fall
through to the active workspace, then the first workspace, then throw. -/
def getLinearClient (cfg : Option WorkspacesConfig) (clients : ClientMap)
    (workspaceId : Option String) : ResolveResult :=
  match workspaceId with
  | some w =>
    if w != "" && mapHas clients w then clientFromGet (mapGet clients w)
    else activeWorkspaceClient cfg clients
  | none => activeWorkspaceClient cfg clients

/-- JS `String.prototype.toLowerCase`, written over the character list so
that it evaluates by kernel reduction (the library `String.toLower` is the
same map but defined by well-founded recursion). -/
def jsToLower (s : String) : String := ⟨s.data.map Char.toLower⟩

/-- JS `String.prototype.trim`: drop whitespace from both ends. -/
def jsTrim (s : String) : String :=
  ⟨((s.data.dropWhile Char.isWhitespace).reverse.dropWhile Char.isWhitespace).reverse⟩

/-- JS `String.prototype.split` with a one-character separator, on the
character list: splitting the empty string yields one empty field. -/
def jsSplitList (sep : Char) : List Char → List (List Char)
  | [] => [[]]
  | c :: rest =>
    match jsSplitList sep rest with
    | [] => [[c]]
    | g :: gs => if c == sep then [] :: g :: gs else (c :: g) :: gs

def jsSplit (sep : Char) (s : String) : List String :=
  (jsSplitList sep s.data).map (fun cs => ⟨cs⟩)

/-- `findWorkspace` (src/src/index.ts lines 148-175): exact id match, then
case-insensitive name match, then case-insensitive match of any trimmed
comma-separated alias.  `if (!ws.aliases) return false` makes an absent or
empty alias string falsy. -/
def findWorkspace (cfg : Option WorkspacesConfig) (nameOrIdOrAlias : String) : Option Workspace :=
  match cfg with
  | none => none
  | some c =>
    let lowercaseSearch := jsToLower nameOrIdOrAlias
    match c.workspaces.find? (fun ws => ws.id == nameOrIdOrAlias) with
    | some w => some w
    | none =>
      match c.workspaces.find? (fun ws => jsToLower ws.name == lowercaseSearch) with
      | some w => some w
      | none =>
        c.workspaces.find? (fun ws =>
          match ws.aliases with
          | none => false
          | some al =>
            if al.isEmpty then false
            else ((jsSplit ',' al).map (fun a => jsToLower (jsTrim a))).contains lowercaseSearch)

/-- The client initialization loop (src/src/index.ts lines 96-101): one
`linearClients.set(workspace.id, new LinearClient({apiKey}))` per entry. -/
def buildClients (ws : List Workspace) : ClientMap :=
  ws.foldl (fun m w => mapSet m w.id ⟨w.apiKey⟩) []

/-- The environment-supplied configuration value, classified by what
`decodeURIComponent` + `JSON.parse` (external glue, src/src/index.ts lines
37-49) make of it: absent, a value that parses to an object with a
`workspaces` array (the raw text is kept because the single-workspace
fallback reuses it as `API_KEY`), or any other non-decodable value treated
as a bare credential string. -/
inductive RawConfig where
  | absent
  | bare (value : String)
  | jsonWorkspaces (raw : String) (cfg : WorkspacesConfig)

/-- Lines 33-122 of src/src/index.ts: build `workspacesConfig` and
`linearClients`.  `none` is the fatal `process.exit(1)` path.  A parsed
config is accepted unvalidated; with an empty `workspaces` array the
`else if (API_KEY)` branch registers a "default" client from the raw text
but leaves the parsed config in place; a bare credential synthesizes the
single default workspace and makes it active. -/
def initConfig : RawConfig → Option (WorkspacesConfig × ClientMap)
  | .absent => none
  | .bare v =>
    if v.isEmpty then none
    else
      some (⟨[⟨"default", "Default Workspace", "default@linear-mcp.local", v, none⟩],
             some "default"⟩,
            mapSet [] "default" ⟨v⟩)
  | .jsonWorkspaces raw c =>
    if c.workspaces.isEmpty then
      if raw.isEmpty then some (c, [])
      else some (c, mapSet [] "default" ⟨raw⟩)
    else some (c, buildClients c.workspaces)

/-- The module-level state after startup: the parsed config and the client
pool. -/
structure ServerState where
  config : WorkspacesConfig
  clients : ClientMap
deriving DecidableEq

/-- Full startup: configuration parsing plus the eager
`const linearClient = getLinearClient()` at src/src/index.ts line 145,
whose thrown error crashes the process (`none`). -/
def startup (r : RawConfig) : Option ServerState :=
  match initConfig r with
  | none => none
  | some (c, cl) =>
    match getLinearClient (some c) cl none with
    | .error _ => none
    | _ => some ⟨c, cl⟩

/-- The projection used by the list_workspaces handler (src/src/index.ts
lines 513-517 and 549-553): only id, name and email survive. -/
structure WsSummary where
  id : String
  name : String
  email : String
deriving DecidableEq

def wsSummary (w : Workspace) : WsSummary := ⟨w.id, w.name, w.email⟩

/-- The object serialized by the list_workspaces handler. -/
structure ListView where
  workspaces : List WsSummary
  activeWorkspace : Option WsSummary
deriving DecidableEq

/-- One element of a response `content` array.  `jsonView v` stands for the
source `{type: "text", text: JSON.stringify(v)}`; stringification is
external glue and injective on these views. -/
inductive ContentItem where
  | text (s : String)
  | jsonView (v : ListView)
deriving DecidableEq

/-- A tool response envelope; src/src/index.ts never sets `isError`, so it
is false (absent) on every path of that variant. -/
structure ToolResponse where
  content : List ContentItem
  isError : Bool := false
deriving DecidableEq

def noWorkspacesMsg : String :=
  "No workspaces are configured. Please set up workspaces in your configuration."

/-- The not-found message of src/src/index.ts line 532 (source quotes the
name; quoting characters are elided, the content is the same). -/
def notFoundMsg (s : String) (c : WorkspacesConfig) : String :=
  "Workspace " ++ s ++ " not found. Available workspaces: " ++
    String.intercalate ", " (c.workspaces.map (fun ws => ws.name))

/-- The no-selector branch of the list_workspaces handler (src/src/index.ts
lines 539-562): list all workspaces and resolve the active one by id. -/
def listingView (c : WorkspacesConfig) : ToolResponse × Option WorkspacesConfig :=
  (⟨[.jsonView ⟨c.workspaces.map wsSummary,
      (c.activeWorkspaceId.bind (fun a => c.workspaces.find? (fun ws => ws.id == a))).map wsSummary⟩],
    false⟩,
   some c)

/-- The list_workspaces tool handler (src/src/index.ts lines 487-563),
returning the response together with the new `workspacesConfig` (its only
mutation is `workspacesConfig.activeWorkspaceId = workspace.id`). -/
def listWorkspacesHandler (cfg : Option WorkspacesConfig) (workspace : Option String) :
    ToolResponse × Option WorkspacesConfig :=
  match cfg with
  | none => (⟨[.text noWorkspacesMsg], false⟩, none)
  | some c =>
    if c.workspaces.isEmpty then (⟨[.text noWorkspacesMsg], false⟩, some c)
    else
      match workspace with
      | some s =>
        if s.isEmpty then listingView c
        else
          match findWorkspace (some c) s with
          | some w =>
            (⟨[.jsonView ⟨c.workspaces.map wsSummary, some (wsSummary w)⟩], false⟩,
             some { c with activeWorkspaceId := some w.id })
          | none => (⟨[.text (notFoundMsg s c)], false⟩, some c)
      | none => listingView c

/-- `ErrorCode.MethodNotFound` is the only SDK error code the source uses. -/
inductive McpErrorCode where
  | methodNotFound
deriving DecidableEq

/-- A value thrown inside the call-tool handler: an `McpError` or a plain
JS `Error` (argument-validation throws, routing throws, upstream rejections). -/
inductive Thrown where
  | mcp (code : McpErrorCode) (msg : String)
  | js (msg : String)
deriving DecidableEq

def Thrown.message : Thrown → String
  | .mcp _ m => m
  | .js m => m

/-- The argument bag fields the modeled tools read. -/
structure CallArgs where
  workspace : Option String := none
  workspaceId : Option String := none
  title : Option String := none
  teamId : Option String := none
deriving DecidableEq

/-- The shared shape of the per-tool cases other than list_workspaces
(src/src/index.ts lines 564-998): resolve a client from the optional
`workspaceId` argument — a thrown routing error or a method call on an
`undefined` client escapes as a JS error — then await the upstream call,
whose rejection also escapes as a JS error.  Per-tool argument validation
and response field-mapping beyond this shape are upstream-facing glue. -/
def simpleToolCase (cfg : Option WorkspacesConfig) (clients : ClientMap)
    (api : LinearClient → Except String String) (wid : Option String) :
    Except Thrown (ToolResponse × Option WorkspacesConfig) :=
  match getLinearClient cfg clients wid with
  | .error m => .error (.js m)
  | .missingClient => .error (.js "TypeError: client is undefined")
  | .client c =>
    match api c with
    | .ok payload => .ok (⟨[.text payload], false⟩, cfg)
    | .error m => .error (.js m)

/-- The switch of the CallToolRequestSchema handler (src/src/index.ts lines
486-1006), before the surrounding try/catch.  `upstream toolName client` is
the awaited outcome of that tool's upstream API call.  `create_issue` is
modeled with its own required-argument check (lines 566-570: the client is
resolved before the check, and a missing title or teamId throws); the
remaining upstream tools share `simpleToolCase`.  The default case throws
`McpError(ErrorCode.MethodNotFound, ...)`. -/
def callToolInner (cfg : Option WorkspacesConfig) (clients : ClientMap)
    (upstream : String → LinearClient → Except String String)
    (name : String) (args : CallArgs) :
    Except Thrown (ToolResponse × Option WorkspacesConfig) :=
  match name with
  | "list_workspaces" => .ok (listWorkspacesHandler cfg args.workspace)
  | "create_issue" =>
    match getLinearClient cfg clients args.workspaceId with
    | .error m => .error (.js m)
    | .missingClient => .error (.js "TypeError: client is undefined")
    | .client c =>
      if (args.title.getD "").isEmpty || (args.teamId.getD "").isEmpty then
        .error (.js "Title and teamId are required")
      else
        match upstream "create_issue" c with
        | .ok payload => .ok (⟨[.text payload], false⟩, cfg)
        | .error m => .error (.js m)
  | "list_issues" => simpleToolCase cfg clients (upstream "list_issues") args.workspaceId
  | "update_issue" => simpleToolCase cfg clients (upstream "update_issue") args.workspaceId
  | "list_teams" => simpleToolCase cfg clients (upstream "list_teams") args.workspaceId
  | "list_projects" => simpleToolCase cfg clients (upstream "list_projects") args.workspaceId
  | "search_issues" => simpleToolCase cfg clients (upstream "search_issues") args.workspaceId
  | "get_issue" => simpleToolCase cfg clients (upstream "get_issue") args.workspaceId
  | "get_issue_status" => simpleToolCase cfg clients (upstream "get_issue_status") args.workspaceId
  | _ => .error (.mcp .methodNotFound ("Method " ++ name ++ " not found"))

/-- The whole CallToolRequestSchema handler (src/src/index.ts lines
484-1018): the try/catch catches every thrown value — the `McpError` of the
default case included, since the throw sits inside the try block — and
turns it into a normal content result `Error: <message>`, so the handler
returns on every input and never lets a fault propagate to the transport. -/
def handleCallTool (cfg : Option WorkspacesConfig) (clients : ClientMap)
    (upstream : String → LinearClient → Except String String)
    (name : String) (args : CallArgs) : ToolResponse × Option WorkspacesConfig :=
  match callToolInner cfg clients upstream name args with
  | .ok r => r
  | .error e => (⟨[.text ("Error: " ++ e.message)], false⟩, cfg)

/-- `pageInfo` of a workflow-states page (src/src/index.ts lines 786-787). -/
structure PageInfo where
  hasNextPage : Bool
  endCursor : Option String
deriving DecidableEq

/-- One upstream page; the per-node field projection (id, name, description,
position, type) is upstream-facing glue, so nodes are kept abstract. -/
structure Page (α : Type) where
  nodes : List α
  pageInfo : PageInfo
deriving DecidableEq

/-- The get_issue_status pagination loop (src/src/index.ts lines 767-788):
starting from a null cursor, push every page of nodes in order and continue
with `pageInfo.endCursor` while `pageInfo.hasNextPage`.  The source loop has
no bound; the fuel argument makes the embedding total, and `none` means the
loop was still running when the fuel ran out. -/
def paginateAux {α : Type} (fetch : Option String → Page α) :
    Nat → Option String → Option (List α)
  | 0, _ => none
  | fuel + 1, cursor =>
    let page := fetch cursor
    if page.pageInfo.hasNextPage then
      (paginateAux fetch fuel page.pageInfo.endCursor).map (fun rest => page.nodes ++ rest)
    else some page.nodes

/-- The cursor reached after n fetches starting from cursor c: each fetch
uses the endCursor returned by the previous page. -/
def cursorFrom {α : Type} (fetch : Option String → Page α) (c : Option String) :
    Nat → Option String
  | 0 => c
  | n + 1 => (fetch (cursorFrom fetch c n)).pageInfo.endCursor

/-- The page returned by the (n+1)-th fetch starting from cursor c. -/
def pageFrom {α : Type} (fetch : Option String → Page α) (c : Option String) (n : Nat) : Page α :=
  fetch (cursorFrom fetch c n)

/-- Everything of a workspace record except the credential. -/
def wsPublic (w : Workspace) : String × String × String × Option String :=
  (w.id, w.name, w.email, w.aliases)

/-- Everything of a configuration except the credentials. -/
def publicPart (c : WorkspacesConfig) : List (String × String × String × Option String) × Option String :=
  (c.workspaces.map wsPublic, c.activeWorkspaceId)

/-- The registry invariant of the spec: a set active id references an
existing record. -/
def invariantActive (c : WorkspacesConfig) : Prop :=
  ∀ a, c.activeWorkspaceId = some a → (c.workspaces.find? (fun w => w.id == a)).isSome

/-- `activeRecord`: resolve the active id through the records, as the
listing branch does at src/src/index.ts lines 540-542. -/
def activeRecord (c : WorkspacesConfig) : Option Workspace :=
  c.activeWorkspaceId.bind (fun a => c.workspaces.find? (fun w => w.id == a))

/-! Concrete fixtures used by counterexamples and witnesses. -/

/-- The two-workspace scenario of the spec (section 8): ids a and b, names
Alpha and Beta, active workspace b. -/
def wsA : Workspace := ⟨"a", "Alpha", "a@x", "key-a", none⟩

def wsB : Workspace := ⟨"b", "Beta", "b@x", "key-b", none⟩

def cfgAB : WorkspacesConfig := ⟨[wsA, wsB], some "b"⟩

/-- A distinct two-workspace configuration, active on its second entry. -/
def cfgTwo : WorkspacesConfig :=
  ⟨[⟨"w1", "One", "one@x", "key-1", none⟩, ⟨"w2", "Two", "two@x", "key-2", none⟩], some "w2"⟩

/-- The round-trip workspace of the spec: aliases "work, main". -/
def roundWs : Workspace := ⟨"work-project", "Work Project", "w@x", "k", some "work, main"⟩

def roundCfg : WorkspacesConfig := ⟨[roundWs], none⟩

/-- A configuration where one record's id equals another record's name. -/
def conflictWs1 : Workspace := ⟨"Beta", "Alpha One", "c1@x", "k1", none⟩

def conflictWs2 : Workspace := ⟨"b2", "Beta", "c2@x", "k2", none⟩

def conflictCfg : WorkspacesConfig := ⟨[conflictWs1, conflictWs2], none⟩

/-- Two records with the same id and different credentials. -/
def wsDup1 : Workspace := ⟨"a", "First", "e1", "k1", none⟩

def wsDup2 : Workspace := ⟨"a", "Second", "e2", "k2", none⟩

def cfgDup : WorkspacesConfig := ⟨[wsDup1, wsDup2], none⟩

/-- A configuration whose activeWorkspaceId matches no record. -/
def cfgDangle : WorkspacesConfig := ⟨[⟨"a", "A", "e", "k", none⟩], some "zzz"⟩

/-- C1 counterexample: after startup on a two-workspace configuration with
active workspace w2, the selector "zzz" matches no id, name or alias, yet
`getLinearClient` does not fail: it falls back to the active workspace and
returns workspace w2's configured client. -/
theorem unknownSelector_returns_active_client :
    startup (.jsonWorkspaces "cfgjson" cfgTwo) =
      some ⟨cfgTwo, [("w1", ⟨"key-1"⟩), ("w2", ⟨"key-2"⟩)]⟩
    ∧ findWorkspace (some cfgTwo) "zzz" = none
    ∧ getLinearClient (some cfgTwo) [("w1", ⟨"key-1"⟩), ("w2", ⟨"key-2"⟩)] (some "zzz") =
        .client ⟨"key-2"⟩
    ∧ mapGet [("w1", ⟨"key-1"⟩), ("w2", ⟨"key-2"⟩)] "w2" = some ⟨"key-2"⟩ := by
  refine ⟨rfl, by decide, rfl, rfl⟩

/-- C1 amended: routing with an explicit selector that is not a client-map
key behaves exactly as routing with no selector at all — it falls through to
the active workspace, then the first workspace, and fails only when those
fail too. -/
theorem unknown_selector_falls_back (cfg : Option WorkspacesConfig) (clients : ClientMap)
    (s : String) (h : mapHas clients s = false) :
    getLinearClient cfg clients (some s) = getLinearClient cfg clients none := by
  simp [getLinearClient, h]

/-- C1 amended, witness: the general fall-back theorem applied to the
concrete startup state of the counterexample. -/
theorem unknown_selector_falls_back_witness :
    getLinearClient (some cfgTwo) [("w1", ⟨"key-1"⟩), ("w2", ⟨"key-2"⟩)] (some "zzz") =
      getLinearClient (some cfgTwo) [("w1", ⟨"key-1"⟩), ("w2", ⟨"key-2"⟩)] none :=
  unknown_selector_falls_back (some cfgTwo) [("w1", ⟨"key-1"⟩), ("w2", ⟨"key-2"⟩)] "zzz"
    (by decide)

/-- C4 counterexample: in the spec scenario (workspaces a/Alpha and b/Beta,
active b) a call with selector "Alpha" — which lookup resolves to workspace
a by case-insensitive name — is routed to workspace b's client, because
`getLinearClient` matches the selector only against client-map keys (ids)
and falls back to the active workspace. -/
theorem resolve_by_name_ignored :
    findWorkspace (some cfgAB) "Alpha" = some wsA
    ∧ getLinearClient (some cfgAB) (buildClients cfgAB.workspaces) (some "Alpha") =
        .client ⟨"key-b"⟩
    ∧ wsA.apiKey = "key-a"
    ∧ (⟨"key-b"⟩ : LinearClient) ≠ ⟨"key-a"⟩ := by
  refine ⟨by decide, rfl, rfl, by decide⟩

/-- C4 amended: in the spec scenario, resolve with no selector returns the
active workspace b's client and resolve by exact id "a" returns workspace
a's client, but resolve("Alpha") and resolve("zzz") do not fail and do not
reach workspace a: both fall back to the active workspace b's client, since
the router matches selectors against ids only. -/
theorem resolve_scenario_amended :
    startup (.jsonWorkspaces "cfgjson" cfgAB) =
      some ⟨cfgAB, [("a", ⟨"key-a"⟩), ("b", ⟨"key-b"⟩)]⟩
    ∧ getLinearClient (some cfgAB) [("a", ⟨"key-a"⟩), ("b", ⟨"key-b"⟩)] none =
        .client ⟨"key-b"⟩
    ∧ getLinearClient (some cfgAB) [("a", ⟨"key-a"⟩), ("b", ⟨"key-b"⟩)] (some "a") =
        .client ⟨"key-a"⟩
    ∧ getLinearClient (some cfgAB) [("a", ⟨"key-a"⟩), ("b", ⟨"key-b"⟩)] (some "Alpha") =
        .client ⟨"key-b"⟩
    ∧ getLinearClient (some cfgAB) [("a", ⟨"key-a"⟩), ("b", ⟨"key-b"⟩)] (some "zzz") =
        .client ⟨"key-b"⟩ := by
  refine ⟨?_, ?_, ?_, ?_, ?_⟩ <;> rfl

/-- C5 counterexample: a parsed configuration whose activeWorkspaceId
matches no record id is accepted unvalidated at startup, so the registry
reaches a state where the active id is set but dangles and activeRecord
resolves to none. -/
theorem initial_active_id_dangles :
    startup (.jsonWorkspaces "raw" cfgDangle) = some ⟨cfgDangle, [("a", ⟨"k"⟩)]⟩
    ∧ cfgDangle.activeWorkspaceId = some "zzz"
    ∧ cfgDangle.workspaces.find? (fun w => w.id == "zzz") = none
    ∧ activeRecord cfgDangle = none := by
  refine ⟨rfl, rfl, by decide, by decide⟩

/-- C2: for the concrete unknown tool name no_such_tool, the switch throws
`McpError(ErrorCode.MethodNotFound, ...)`, but the throw happens inside the
handler's try block, so the catch-all converts it into a normal
content-bearing result instead of letting it surface as a transport-level
fault — on this code path the claimed raised protocol error never reaches
the transport. -/
theorem unknown_tool_caught_as_content :
    callToolInner (some cfgAB) [("a", ⟨"key-a"⟩), ("b", ⟨"key-b"⟩)]
        (fun _ _ => .ok "") "no_such_tool" {} =
      .error (.mcp .methodNotFound "Method no_such_tool not found")
    ∧ handleCallTool (some cfgAB) [("a", ⟨"key-a"⟩), ("b", ⟨"key-b"⟩)]
        (fun _ _ => .ok "") "no_such_tool" {} =
      (⟨[.text "Error: Method no_such_tool not found"], false⟩, some cfgAB) := by
  exact ⟨rfl, rfl⟩

/-- C6 counterexample: with two records sharing id "a", lookup of "a"
returns the earlier record (the id tier takes the first match), not the
later one, even though the client pool holds the later entry's client. -/
theorem duplicate_id_lookup_first :
    findWorkspace (some cfgDup) "a" = some wsDup1
    ∧ wsDup1.name = "First"
    ∧ wsDup2.name = "Second"
    ∧ wsDup1 ≠ wsDup2
    ∧ mapGet (buildClients cfgDup.workspaces) "a" = some ⟨"k2"⟩ := by
  refine ⟨by decide, rfl, rfl, by decide, rfl⟩

/-! Helper lemmas shared by several claims. -/

/-- When some record matches the selector exactly by id, `findWorkspace`
is decided by the id tier alone. -/
theorem findWorkspace_id_tier (c : WorkspacesConfig) (sel : String)
    (h : (c.workspaces.find? (fun ws => ws.id == sel)).isSome) :
    findWorkspace (some c) sel = c.workspaces.find? (fun ws => ws.id == sel) := by
  cases hf : c.workspaces.find? (fun ws => ws.id == sel) with
  | none => rw [hf] at h; simp at h
  | some w => simp [findWorkspace, hf]

/-- When no record matches by id and some record matches by
case-insensitive name, `findWorkspace` is decided by the name tier: a later
alias match never overrides it. -/
theorem findWorkspace_name_tier (c : WorkspacesConfig) (sel : String) (w : Workspace)
    (h1 : c.workspaces.find? (fun ws => ws.id == sel) = none)
    (h2 : c.workspaces.find? (fun ws => jsToLower ws.name == jsToLower sel) = some w) :
    findWorkspace (some c) sel = some w := by
  simp [findWorkspace, h1, h2]

/-- A found workspace is one of the configured records. -/
theorem findWorkspace_mem (c : WorkspacesConfig) (sel : String) (w : Workspace)
    (h : findWorkspace (some c) sel = some w) : w ∈ c.workspaces := by
  simp only [findWorkspace] at h
  cases h1 : c.workspaces.find? (fun ws => ws.id == sel) with
  | some u =>
    rw [h1] at h
    simp only [Option.some.injEq] at h
    subst h
    exact List.mem_of_find?_eq_some h1
  | none =>
    rw [h1] at h
    cases h2 : c.workspaces.find? (fun ws => jsToLower ws.name == jsToLower sel) with
    | some u =>
      rw [h2] at h
      simp only [Option.some.injEq] at h
      subst h
      exact List.mem_of_find?_eq_some h2
    | none =>
      rw [h2] at h
      exact List.mem_of_find?_eq_some h

/-- `mapGet` after `mapSet`: the written key reads back the written value,
every other key is unaffected. -/
theorem mapGet_mapSet (m : ClientMap) (k q : String) (v : LinearClient) :
    mapGet (mapSet m k v) q = if k == q then some v else mapGet m q := by
  induction m with
  | nil =>
    by_cases h : k = q <;> simp [mapSet, mapGet, h]
  | cons p rest ih =>
    obtain ⟨k0, v0⟩ := p
    by_cases h0 : k0 = k
    · subst h0
      by_cases h1 : k0 = q <;> simp [mapSet, mapGet, h1]
    · by_cases h1 : k0 = q
      · subst h1
        have hk : ¬ k = k0 := fun he => h0 he.symm
        simp [mapSet, mapGet, h0, hk]
      · simp [mapSet, mapGet, h0, h1] at ih ⊢
        exact ih

/-- Reading the client pool built by folding `Map.set` over the workspace
list: the last write to a key wins, i.e. the result is the last matching
record in declaration order. -/
theorem mapGet_foldl_set (ws : List Workspace) (m : ClientMap) (k : String) :
    mapGet (ws.foldl (fun acc w => mapSet acc w.id ⟨w.apiKey⟩) m) k =
      match ws.reverse.find? (fun w => w.id == k) with
      | some u => some ⟨u.apiKey⟩
      | none => mapGet m k := by
  induction ws generalizing m with
  | nil => simp
  | cons w rest ih =>
    rw [List.foldl_cons, ih, List.reverse_cons, List.find?_append]
    cases hf : rest.reverse.find? (fun u => u.id == k) with
    | some u => simp
    | none =>
      simp only [Option.none_or, List.find?_singleton]
      rw [mapGet_mapSet]
      cases h : w.id == k <;> simp [h]

/-- The client pool maps an id to the client built from the credential of
the last configured record with that id. -/
theorem mapGet_buildClients (ws : List Workspace) (k : String) :
    mapGet (buildClients ws) k =
      (ws.reverse.find? (fun w => w.id == k)).map (fun w => (⟨w.apiKey⟩ : LinearClient)) := by
  rw [buildClients, mapGet_foldl_set]
  cases hf : ws.reverse.find? (fun w => w.id == k) <;> simp [mapGet]

/-- `clientFromGet` never produces the thrown-error outcome. -/
theorem clientFromGet_ne_error (o : Option LinearClient) (m : String) :
    clientFromGet o ≠ .error m := by
  cases o <;> simp [clientFromGet]

/-- With at least one workspace configured, tier 3 cannot throw. -/
theorem firstWorkspaceClient_ne_error (c : WorkspacesConfig) (clients : ClientMap)
    (h : c.workspaces ≠ []) (m : String) :
    firstWorkspaceClient (some c) clients ≠ .error m := by
  cases hw : c.workspaces with
  | nil => exact absurd hw h
  | cons w0 rest => simp [firstWorkspaceClient, hw, clientFromGet_ne_error]

/-- With at least one workspace configured, the no-selector fallback cannot
throw. -/
theorem activeWorkspaceClient_ne_error (c : WorkspacesConfig) (clients : ClientMap)
    (h : c.workspaces ≠ []) (m : String) :
    activeWorkspaceClient (some c) clients ≠ .error m := by
  obtain ⟨ws, act⟩ := c
  simp only [activeWorkspaceClient]
  cases act with
  | none => exact firstWorkspaceClient_ne_error ⟨ws, none⟩ clients h m
  | some a =>
    show (if (a != "" && mapHas clients a) = true then clientFromGet (mapGet clients a)
        else firstWorkspaceClient (some ⟨ws, some a⟩) clients) ≠ ResolveResult.error m
    by_cases hg : (a != "" && mapHas clients a) = true
    · rw [if_pos hg]
      exact clientFromGet_ne_error _ m
    · rw [if_neg hg]
      exact firstWorkspaceClient_ne_error ⟨ws, some a⟩ clients h m

/-- A parsed multi-workspace configuration with at least one entry always
survives startup: any id duplication or dangling active id is accepted. -/
theorem startup_json_isSome (raw : String) (c : WorkspacesConfig)
    (h : c.workspaces ≠ []) : (startup (.jsonWorkspaces raw c)).isSome := by
  have hne : c.workspaces.isEmpty = false := by
    cases hw : c.workspaces with
    | nil => exact absurd hw h
    | cons a l => rfl
  simp only [startup, initConfig, hne, Bool.false_eq_true, if_false]
  cases hg : getLinearClient (some c) (buildClients c.workspaces) none with
  | error m =>
    exact absurd hg (activeWorkspaceClient_ne_error c (buildClients c.workspaces) h m)
  | client cl => simp [hg]
  | missingClient => simp [hg]

/-- C3: the three lookup tiers are tried in order with the first success
winning — an exact id match is decided by the id tier even when another
record would match by name or alias (concretely, in conflictCfg the
selector "Beta" is the id of the first record and the name of the second,
and resolves to the first); when no id matches, a case-insensitive name
match is decided by the name tier and never overridden by a later alias
match; and a workspace with aliases "work, main" is found by "Work", "MAIN"
and its exact id, but not by the prefix "wor". -/
theorem lookup_tier_order :
    (∀ (c : WorkspacesConfig) (sel : String),
        ((c.workspaces.find? (fun ws => ws.id == sel)).isSome →
          findWorkspace (some c) sel = c.workspaces.find? (fun ws => ws.id == sel))
      ∧ (c.workspaces.find? (fun ws => ws.id == sel) = none →
         ∀ w, c.workspaces.find? (fun ws => jsToLower ws.name == jsToLower sel) = some w →
          findWorkspace (some c) sel = some w))
    ∧ findWorkspace (some conflictCfg) "Beta" = some conflictWs1
    ∧ findWorkspace (some roundCfg) "Work" = some roundWs
    ∧ findWorkspace (some roundCfg) "MAIN" = some roundWs
    ∧ findWorkspace (some roundCfg) "work-project" = some roundWs
    ∧ findWorkspace (some roundCfg) "wor" = none := by
  refine ⟨fun c sel => ⟨findWorkspace_id_tier c sel, fun h1 w h2 => findWorkspace_name_tier c sel w h1 h2⟩,
    by decide, by decide, by decide, by decide, by decide⟩

/-- C3 witness: the id tier decides the conflict configuration. -/
theorem lookup_tier_order_witness :
    findWorkspace (some conflictCfg) "Beta" =
      conflictCfg.workspaces.find? (fun ws => ws.id == "Beta") :=
  (lookup_tier_order.1 conflictCfg "Beta").1 (by decide)

/-- C6 amended: a configuration with duplicate ids is accepted at startup,
and resolving such an id yields the client built from the LAST entry with
that id (`Map.set` overwrites), while `findWorkspace` of the same id
returns the FIRST entry with that id (the id tier uses the first match) —
the later entry does not overwrite the earlier record in the registry. -/
theorem duplicate_ids_amended (raw : String) (c : WorkspacesConfig) (i : String)
    (hid : (c.workspaces.find? (fun w => w.id == i)).isSome) :
    (startup (.jsonWorkspaces raw c)).isSome
    ∧ mapGet (buildClients c.workspaces) i =
        (c.workspaces.reverse.find? (fun w => w.id == i)).map
          (fun w => (⟨w.apiKey⟩ : LinearClient))
    ∧ findWorkspace (some c) i = c.workspaces.find? (fun w => w.id == i) := by
  have hne : c.workspaces ≠ [] := by
    intro h
    rw [h] at hid
    simp at hid
  exact ⟨startup_json_isSome raw c hne, mapGet_buildClients c.workspaces i,
    findWorkspace_id_tier c i hid⟩

/-- C6 amended, witness: the duplicate-id configuration cfgDup (two records
with id "a", credentials k1 then k2). -/
theorem duplicate_ids_amended_witness :
    (startup (.jsonWorkspaces "x" cfgDup)).isSome
    ∧ mapGet (buildClients cfgDup.workspaces) "a" =
        (cfgDup.workspaces.reverse.find? (fun w => w.id == "a")).map
          (fun w => (⟨w.apiKey⟩ : LinearClient))
    ∧ findWorkspace (some cfgDup) "a" = cfgDup.workspaces.find? (fun w => w.id == "a") :=
  duplicate_ids_amended "x" cfgDup "a" (by decide)

/-- C8: any non-decodable configuration value (a bare credential string)
yields exactly one workspace record with the fixed id "default", which is
the sole registry entry and the active workspace, and the no-selector route
resolves to the client built from that credential. -/
theorem bare_key_single_workspace (s : String) (h : s.isEmpty = false) :
    startup (.bare s) =
      some ⟨⟨[⟨"default", "Default Workspace", "default@linear-mcp.local", s, none⟩],
              some "default"⟩,
            [("default", ⟨s⟩)]⟩
    ∧ getLinearClient
        (some ⟨[⟨"default", "Default Workspace", "default@linear-mcp.local", s, none⟩],
               some "default"⟩)
        [("default", ⟨s⟩)] none = .client ⟨s⟩ := by
  constructor
  · simp [startup, initConfig, h, mapSet, getLinearClient, activeWorkspaceClient,
      mapHas, mapGet, clientFromGet]
  · simp [getLinearClient, activeWorkspaceClient, mapHas, mapGet, clientFromGet]

/-- C8 witness: the bare credential "my-key". -/
theorem bare_key_single_workspace_witness :
    startup (.bare "my-key") =
      some ⟨⟨[⟨"default", "Default Workspace", "default@linear-mcp.local", "my-key", none⟩],
              some "default"⟩,
            [("default", ⟨"my-key"⟩)]⟩
    ∧ getLinearClient
        (some ⟨[⟨"default", "Default Workspace", "default@linear-mcp.local", "my-key", none⟩],
               some "default"⟩)
        [("default", ⟨"my-key"⟩)] none = .client ⟨"my-key"⟩ :=
  bare_key_single_workspace "my-key" (by decide)

/-- Setting the active id to a found record's id satisfies the registry
invariant. -/
theorem invariant_set_active (c : WorkspacesConfig) (w : Workspace)
    (hmem : w ∈ c.workspaces) :
    invariantActive { c with activeWorkspaceId := some w.id } := by
  intro a ha
  simp only [Option.some.injEq] at ha
  subst ha
  rw [List.find?_isSome]
  exact ⟨w, hmem, by simp⟩

/-- C5 amended: every list_workspaces call preserves the invariant that a
set active id references an existing record, and a call whose selector
resolves establishes it outright (the handler only ever writes ids of found
records); the initial configuration, by contrast, is accepted unvalidated
and can start the process in a state that violates the invariant. -/
theorem select_workspace_invariant (c : WorkspacesConfig) (arg : Option String) :
    (invariantActive c →
      ∀ c2, (listWorkspacesHandler (some c) arg).2 = some c2 → invariantActive c2)
    ∧ (∀ s w, arg = some s → s.isEmpty = false → findWorkspace (some c) s = some w →
        (listWorkspacesHandler (some c) arg).2 = some { c with activeWorkspaceId := some w.id }
        ∧ invariantActive { c with activeWorkspaceId := some w.id }) := by
  constructor
  · intro hinv c2 h2
    cases he : c.workspaces.isEmpty with
    | true =>
      simp only [listWorkspacesHandler, he, if_true, Option.some.injEq] at h2
      subst h2
      exact hinv
    | false =>
      cases arg with
      | none =>
        simp only [listWorkspacesHandler, he, Bool.false_eq_true, if_false, listingView,
          Option.some.injEq] at h2
        subst h2
        exact hinv
      | some s =>
        cases hs : s.isEmpty with
        | true =>
          simp only [listWorkspacesHandler, he, Bool.false_eq_true, if_false, hs, if_true,
            listingView, Option.some.injEq] at h2
          subst h2
          exact hinv
        | false =>
          cases hf : findWorkspace (some c) s with
          | some w =>
            simp only [listWorkspacesHandler, he, Bool.false_eq_true, if_false, hs, hf,
              Option.some.injEq] at h2
            subst h2
            exact invariant_set_active c w (findWorkspace_mem c s w hf)
          | none =>
            simp only [listWorkspacesHandler, he, Bool.false_eq_true, if_false, hs, hf,
              Option.some.injEq] at h2
            subst h2
            exact hinv
  · intro s w harg hs hf
    subst harg
    have hne : c.workspaces.isEmpty = false := by
      have hmem := findWorkspace_mem c s w hf
      cases hw : c.workspaces with
      | nil => rw [hw] at hmem; exact absurd hmem (List.not_mem_nil w)
      | cons a l => rfl
    refine ⟨?_, invariant_set_active c w (findWorkspace_mem c s w hf)⟩
    simp only [listWorkspacesHandler, hne, Bool.false_eq_true, if_false, hs, hf]

/-- C5 amended, witness: selecting "Alpha" on the two-workspace scenario
sets the active id to "a" and the invariant holds afterwards. -/
theorem select_workspace_invariant_witness :
    (listWorkspacesHandler (some cfgAB) (some "Alpha")).2 =
      some { cfgAB with activeWorkspaceId := some "a" }
    ∧ invariantActive { cfgAB with activeWorkspaceId := some "a" } := by
  have h := (select_workspace_invariant cfgAB (some "Alpha")).2 "Alpha" wsA rfl
    (by decide) (by decide)
  exact h

/-- C7: on a configuration with at least one workspace, a list_workspaces
call whose non-empty selector resolves to no workspace returns a non-error
informational text listing the available workspace names and leaves the
configuration (in particular the active workspace) unchanged; a call whose
selector resolves to workspace w sets w active and returns the updated
listing with w as the active workspace. -/
theorem list_workspaces_tool_behavior (c : WorkspacesConfig) (s : String)
    (hne : c.workspaces ≠ []) (hs : s.isEmpty = false) :
    (findWorkspace (some c) s = none →
      listWorkspacesHandler (some c) (some s) =
        (⟨[.text (notFoundMsg s c)], false⟩, some c))
    ∧ (∀ w, findWorkspace (some c) s = some w →
      listWorkspacesHandler (some c) (some s) =
        (⟨[.jsonView ⟨c.workspaces.map wsSummary, some (wsSummary w)⟩], false⟩,
         some { c with activeWorkspaceId := some w.id })) := by
  have hE : c.workspaces.isEmpty = false := by
    cases hw : c.workspaces with
    | nil => exact absurd hw hne
    | cons a l => rfl
  constructor
  · intro hf
    simp only [listWorkspacesHandler, hE, Bool.false_eq_true, if_false, hs, hf]
  · intro w hf
    simp only [listWorkspacesHandler, hE, Bool.false_eq_true, if_false, hs, hf]

/-- C7 witness: on the two-workspace scenario, the unknown selector "nope"
reports the available workspaces without changing anything. -/
theorem list_workspaces_tool_behavior_witness :
    listWorkspacesHandler (some cfgAB) (some "nope") =
      (⟨[.text (notFoundMsg "nope" cfgAB)], false⟩, some cfgAB) :=
  (list_workspaces_tool_behavior cfgAB "nope" (by decide) (by decide)).1 (by decide)

/-- Shifting the cursor chain by one fetch. -/
theorem cursorFrom_shift {α : Type} (fetch : Option String → Page α) (c : Option String)
    (n : Nat) :
    cursorFrom fetch c (n + 1) = cursorFrom fetch (fetch c).pageInfo.endCursor n := by
  induction n with
  | zero => rfl
  | succ k ih =>
    show (fetch (cursorFrom fetch c (k + 1))).pageInfo.endCursor =
      cursorFrom fetch (fetch c).pageInfo.endCursor (k + 1)
    rw [ih]
    rfl

/-- Shifting the page chain by one fetch. -/
theorem pageFrom_shift {α : Type} (fetch : Option String → Page α) (c : Option String)
    (n : Nat) :
    pageFrom fetch c (n + 1) = pageFrom fetch (fetch c).pageInfo.endCursor n := by
  rw [pageFrom, pageFrom, cursorFrom_shift]

/-- The pagination loop run with enough fuel from any starting cursor:
if page k is the first page reporting no next page, the loop returns the
in-order concatenation of the nodes of pages 0 through k. -/
theorem paginateAux_collects {α : Type} (fetch : Option String → Page α) :
    ∀ (k : Nat) (c : Option String) (fuel : Nat), k < fuel →
      (pageFrom fetch c k).pageInfo.hasNextPage = false →
      (∀ i, i < k → (pageFrom fetch c i).pageInfo.hasNextPage = true) →
      paginateAux fetch fuel c =
        some (((List.range (k + 1)).map (fun i => (pageFrom fetch c i).nodes)).flatten) := by
  intro k
  induction k with
  | zero =>
    intro c fuel hfuel hk _
    cases fuel with
    | zero => omega
    | succ f =>
      have h0 : (fetch c).pageInfo.hasNextPage = false := hk
      simp [paginateAux, h0, pageFrom, cursorFrom, List.range_succ]
  | succ k ih =>
    intro c fuel hfuel hk hlt
    cases fuel with
    | zero => omega
    | succ f =>
      have h0 : (fetch c).pageInfo.hasNextPage = true := hlt 0 (Nat.succ_pos k)
      have hk2 : (pageFrom fetch (fetch c).pageInfo.endCursor k).pageInfo.hasNextPage = false := by
        rw [← pageFrom_shift]
        exact hk
      have hlt2 : ∀ i, i < k →
          (pageFrom fetch (fetch c).pageInfo.endCursor i).pageInfo.hasNextPage = true := by
        intro i hi
        rw [← pageFrom_shift]
        exact hlt (i + 1) (by omega)
      have hrec := ih (fetch c).pageInfo.endCursor f (by omega) hk2 hlt2
      simp only [paginateAux, h0, if_true, hrec, Option.map_some]
      conv_rhs => rw [List.range_succ_eq_map]
      simp only [List.map_cons, List.map_map, List.flatten_cons]
      have hcomp : ((fun i => (pageFrom fetch c i).nodes) ∘ Nat.succ) =
          fun i => (pageFrom fetch (fetch c).pageInfo.endCursor i).nodes := by
        funext i
        simp [Function.comp, pageFrom_shift]
      rw [hcomp]
      rfl

/-- C9: under the precondition that the upstream reports no further page
after finitely many pages (page k is the first with hasNextPage = false),
the get_issue_status pagination loop run with any sufficient fuel
terminates and returns the concatenation of every page's nodes in page
order with per-page ordering preserved, each fetch after the first using
the endCursor returned by the previous page (the cursor chain `cursorFrom`),
with no page cap: the bound k is arbitrary. -/
theorem get_issue_status_pagination {α : Type} (fetch : Option String → Page α)
    (k fuel : Nat) (hfuel : k < fuel)
    (hk : (pageFrom fetch none k).pageInfo.hasNextPage = false)
    (hlt : ∀ i, i < k → (pageFrom fetch none i).pageInfo.hasNextPage = true) :
    paginateAux fetch fuel none =
      some (((List.range (k + 1)).map (fun i => (pageFrom fetch none i).nodes)).flatten) :=
  paginateAux_collects fetch k none fuel hfuel hk hlt

/-- A two-page upstream used to witness the pagination theorem. -/
def demoFetch : Option String → Page Nat := fun c =>
  match c with
  | none => ⟨[1, 2], ⟨true, some "c1"⟩⟩
  | some _ => ⟨[3], ⟨false, none⟩⟩

/-- C9 witness: two pages, nodes [1, 2] then [3], collected in order. -/
theorem get_issue_status_pagination_witness :
    paginateAux demoFetch 2 none =
      some (((List.range 2).map (fun i => (pageFrom demoFetch none i).nodes)).flatten) :=
  get_issue_status_pagination demoFetch 1 2 (by decide) (by decide)
    (by decide)

/-- Componentwise reading of credential-blind record equality. -/
theorem wsPublic_fields {a b : Workspace} (h : wsPublic a = wsPublic b) :
    a.id = b.id ∧ a.name = b.name ∧ a.email = b.email ∧ a.aliases = b.aliases := by
  simpa only [wsPublic, Prod.mk.injEq] using h

/-- The listing projection only reads credential-blind fields. -/
theorem wsPublic_summary {a b : Workspace} (h : wsPublic a = wsPublic b) :
    wsSummary a = wsSummary b := by
  obtain ⟨h1, h2, h3, h4⟩ := wsPublic_fields h
  simp [wsSummary, h1, h2, h3]

/-- Mapping a function that factors through the credential-blind projection
gives equal results on credential-blind-equal lists. -/
theorem map_factor {β : Type} (f : Workspace → β)
    (hf : ∀ a b, wsPublic a = wsPublic b → f a = f b) :
    ∀ {l₁ l₂ : List Workspace}, l₁.map wsPublic = l₂.map wsPublic →
      l₁.map f = l₂.map f := by
  intro l₁
  induction l₁ with
  | nil =>
    intro l₂ h
    cases l₂ with
    | nil => rfl
    | cons b u => simp at h
  | cons a t ih =>
    intro l₂ h
    cases l₂ with
    | nil => simp at h
    | cons b u =>
      simp only [List.map_cons, List.cons.injEq] at h ⊢
      exact ⟨hf a b h.1, ih h.2⟩

/-- Finding with a predicate that factors through the credential-blind
projection gives summary-equal results on credential-blind-equal lists. -/
theorem find?_factor (p : Workspace → Bool)
    (hp : ∀ a b, wsPublic a = wsPublic b → p a = p b) :
    ∀ {l₁ l₂ : List Workspace}, l₁.map wsPublic = l₂.map wsPublic →
      Option.map wsSummary (l₁.find? p) = Option.map wsSummary (l₂.find? p) := by
  intro l₁
  induction l₁ with
  | nil =>
    intro l₂ h
    cases l₂ with
    | nil => rfl
    | cons b u => simp at h
  | cons a t ih =>
    intro l₂ h
    cases l₂ with
    | nil => simp at h
    | cons b u =>
      simp only [List.map_cons, List.cons.injEq] at h
      obtain ⟨h1, h2⟩ := h
      cases hpa : p a with
      | true =>
        rw [List.find?_cons_of_pos t hpa,
          List.find?_cons_of_pos u (by rw [← hp a b h1]; exact hpa)]
        simp [wsPublic_summary h1]
      | false =>
        rw [List.find?_cons_of_neg t (by simp [hpa]),
          List.find?_cons_of_neg u (by rw [← hp a b h1]; simp [hpa])]
        exact ih h2

/-- Lookup is credential-blind: two configurations equal up to credentials
find summary-equal workspaces for every selector. -/
theorem findWorkspace_public {c₁ c₂ : WorkspacesConfig}
    (h : publicPart c₁ = publicPart c₂) (s : String) :
    Option.map wsSummary (findWorkspace (some c₁) s) =
      Option.map wsSummary (findWorkspace (some c₂) s) := by
  have hw : c₁.workspaces.map wsPublic = c₂.workspaces.map wsPublic := congrArg Prod.fst h
  have t1 := find?_factor (fun ws => ws.id == s)
    (fun a b hab => by
      obtain ⟨h1, h2, h3, h4⟩ := wsPublic_fields hab
      simp only [h1]) hw
  have t2 := find?_factor (fun ws => jsToLower ws.name == jsToLower s)
    (fun a b hab => by
      obtain ⟨h1, h2, h3, h4⟩ := wsPublic_fields hab
      simp only [h2]) hw
  have t3 := find?_factor (fun ws =>
      match ws.aliases with
      | none => false
      | some al =>
        if al.isEmpty then false
        else ((jsSplit ',' al).map (fun a => jsToLower (jsTrim a))).contains (jsToLower s))
    (fun a b hab => by
      obtain ⟨h1, h2, h3, h4⟩ := wsPublic_fields hab
      simp only [h4]) hw
  simp only [findWorkspace]
  cases hf1 : c₁.workspaces.find? (fun ws => ws.id == s) with
  | some u1 =>
    rw [hf1] at t1
    cases hf2 : c₂.workspaces.find? (fun ws => ws.id == s) with
    | some u2 =>
      rw [hf2] at t1
      exact t1
    | none =>
      rw [hf2] at t1
      simp at t1
  | none =>
    rw [hf1] at t1
    cases hf2 : c₂.workspaces.find? (fun ws => ws.id == s) with
    | some u2 =>
      rw [hf2] at t1
      simp at t1
    | none =>
      cases hg1 : c₁.workspaces.find? (fun ws => jsToLower ws.name == jsToLower s) with
      | some v1 =>
        rw [hg1] at t2
        cases hg2 : c₂.workspaces.find? (fun ws => jsToLower ws.name == jsToLower s) with
        | some v2 =>
          rw [hg2] at t2
          exact t2
        | none =>
          rw [hg2] at t2
          simp at t2
      | none =>
        rw [hg1] at t2
        cases hg2 : c₂.workspaces.find? (fun ws => jsToLower ws.name == jsToLower s) with
        | some v2 =>
          rw [hg2] at t2
          simp at t2
        | none =>
          exact t3

/-- The no-selector listing view is credential-blind. -/
theorem listingView_public {c₁ c₂ : WorkspacesConfig}
    (h : publicPart c₁ = publicPart c₂) :
    (listingView c₁).1 = (listingView c₂).1 := by
  have hw : c₁.workspaces.map wsPublic = c₂.workspaces.map wsPublic := congrArg Prod.fst h
  have ha : c₁.activeWorkspaceId = c₂.activeWorkspaceId := congrArg Prod.snd h
  have hsum := map_factor wsSummary (fun a b hab => wsPublic_summary hab) hw
  have hact : Option.map wsSummary
      (c₁.activeWorkspaceId.bind (fun a => c₁.workspaces.find? (fun ws => ws.id == a))) =
    Option.map wsSummary
      (c₂.activeWorkspaceId.bind (fun a => c₂.workspaces.find? (fun ws => ws.id == a))) := by
    rw [← ha]
    cases c₁.activeWorkspaceId with
    | none => rfl
    | some a =>
      simpa using find?_factor (fun ws => ws.id == a)
        (fun x y hab => by
          obtain ⟨h1, h2, h3, h4⟩ := wsPublic_fields hab
          simp only [h1]) hw
  simp only [listingView, hsum, hact]

/-- C10: the list_workspaces response never depends on credentials — for
any two configurations equal in every field except the per-workspace apiKey
(equal `publicPart`), the response returned by the handler is identical for
every argument, since each record is projected to only its id, name and
email on every output path. -/
theorem list_workspaces_no_credential_leak (c₁ c₂ : WorkspacesConfig) (arg : Option String)
    (h : publicPart c₁ = publicPart c₂) :
    (listWorkspacesHandler (some c₁) arg).1 = (listWorkspacesHandler (some c₂) arg).1 := by
  have hw : c₁.workspaces.map wsPublic = c₂.workspaces.map wsPublic := congrArg Prod.fst h
  have hsum := map_factor wsSummary (fun a b hab => wsPublic_summary hab) hw
  have hnames := map_factor (fun w => w.name) (fun a b hab => (wsPublic_fields hab).2.1) hw
  have hEmpty : c₁.workspaces.isEmpty = c₂.workspaces.isEmpty := by
    cases h1 : c₁.workspaces with
    | nil =>
      cases h2 : c₂.workspaces with
      | nil => rfl
      | cons b u => rw [h1, h2] at hw; simp at hw
    | cons a t =>
      cases h2 : c₂.workspaces with
      | nil => rw [h1, h2] at hw; simp at hw
      | cons b u => rfl
  simp only [listWorkspacesHandler]
  cases hE : c₁.workspaces.isEmpty with
  | true =>
    have hE2 : c₂.workspaces.isEmpty = true := by rw [← hEmpty]; exact hE
    simp only [hE, hE2, if_true]
  | false =>
    have hE2 : c₂.workspaces.isEmpty = false := by rw [← hEmpty]; exact hE
    simp only [hE, hE2, Bool.false_eq_true, if_false]
    cases arg with
    | none => exact listingView_public h
    | some s =>
      cases hs : s.isEmpty with
      | true =>
        simp only [hs, if_true]
        exact listingView_public h
      | false =>
        simp only [hs, Bool.false_eq_true, if_false]
        have hfw := findWorkspace_public h s
        cases hf1 : findWorkspace (some c₁) s with
        | some w1 =>
          rw [hf1] at hfw
          cases hf2 : findWorkspace (some c₂) s with
          | some w2 =>
            rw [hf2] at hfw
            simp at hfw
            simp [hsum, hfw]
          | none =>
            rw [hf2] at hfw
            simp at hfw
        | none =>
          rw [hf1] at hfw
          cases hf2 : findWorkspace (some c₂) s with
          | some w2 =>
            rw [hf2] at hfw
            simp at hfw
          | none =>
            simp [notFoundMsg, hnames]

/-- The scenario configuration with both credentials replaced. -/
def cfgABx : WorkspacesConfig :=
  ⟨[⟨"a", "Alpha", "a@x", "OTHER-1", none⟩, ⟨"b", "Beta", "b@x", "OTHER-2", none⟩], some "b"⟩

/-- C10 witness: swapping both credentials of the scenario configuration
leaves the selection response unchanged. -/
theorem list_workspaces_no_credential_leak_witness :
    (listWorkspacesHandler (some cfgAB) (some "Alpha")).1 =
      (listWorkspacesHandler (some cfgABx) (some "Alpha")).1 :=
  list_workspaces_no_credential_leak cfgAB cfgABx (some "Alpha") (by decide)
